import Mathlib

/- Verification of the pipeline graph rendering and synchronization engine of
the attractor dashboard frontend: a shallow embedding of the TypeScript data
model (frontend/src/lib/types.ts), the layout conversion and live-update merge
(frontend/src/lib/dotLayout.ts), the edge geometry renderer
(frontend/src/components/PipelineEdge.tsx) and the reconnecting push channel
(the useWebSocket hook), with theorems about the embedded operations.

JavaScript string-keyed records (insertion ordered) are modelled as ordered
association lists; the two external library calls (ts-graphviz fromDot and the
awaited elk.layout) and the one floating-point library call (Math.sqrt) are
oracle parameters of the functions that invoke them. -/

/-- Run status of one node execution attempt (types.ts, NodeRun.status). -/
inductive RunStatus
  | running
  | success
  | fail
  | timeout
  | partial_success
deriving DecidableEq, Repr

/-- Pipeline-level status (types.ts, PipelineRunState.status). -/
inductive PipelineStatus
  | pending
  | running
  | complete
  | failed
deriving DecidableEq, Repr

/-- Static description of one node (types.ts, NodeInfo). -/
structure NodeInfo where
  id : String
  label : String
  shape : String
  type : String
  prompt : String
deriving DecidableEq, Repr

/-- Static description of one directed edge (types.ts, EdgeInfo). The unused
numeric weight is kept as a rational. -/
structure EdgeInfo where
  from_node : String
  to_node : String
  label : String
  condition : String
  weight : ℚ
deriving DecidableEq, Repr

/-- One execution attempt of a node (types.ts, NodeRun). -/
structure NodeRun where
  status : RunStatus
  attempt : Nat
  started_at : String
  completed_at : Option String
  duration_ms : Nat
  outcome_notes : Option String
  llm_calls : Nat
  tokens_in : Nat
  tokens_out : Nat
  tokens_cached : Nat
deriving DecidableEq, Repr

/-- The execution snapshot of one pipeline instance (types.ts,
PipelineRunState), restricted to the fields the embedded operations read.
The aggregate counters and the collections of unknown element type
(goal_gate_checks, parallel_branches, subgraph_runs, human_interactions,
supervisor_cycles, timing, errors, branches_taken, edge_decisions) are not
consulted by getNodeState, layoutPipeline or updateNodeData and are omitted.
Records keyed by node id are ordered association lists. -/
structure PipelineRunState where
  pipeline_id : String
  dot_source : String
  goal : String
  nodes : List (String × NodeInfo)
  edges : List EdgeInfo
  status : PipelineStatus
  current_node : Option String
  execution_path : List String
  node_runs : List (String × List NodeRun)
  loop_iterations : List (String × Nat)
deriving DecidableEq, Repr

/-- Discrete visual state of a node (types.ts, NodeState). -/
inductive NodeState
  | pending
  | running
  | success
  | failed
  | retrying
  | skipped
deriving DecidableEq, Repr

/-- Resolve the effective visual state for a node from its run history
(types.ts lines 107-120): no runs gives pending; otherwise the last run's
status is mapped running to running, success to success, fail or timeout to
failed, anything else (partial_success) to pending. -/
def getNodeState (nodeId : String) (state : PipelineRunState) : NodeState :=
  match state.node_runs.lookup nodeId with
  | none => NodeState.pending
  | some [] => NodeState.pending
  | some (r :: rs) =>
    let lastRun := rs.getLastD r
    if lastRun.status = RunStatus.running then NodeState.running
    else if lastRun.status = RunStatus.success then NodeState.success
    else if lastRun.status = RunStatus.fail ∨ lastRun.status = RunStatus.timeout then
      NodeState.failed
    else NodeState.pending

/-- JavaScript Array.prototype.indexOf on an array of strings: the index of
the first occurrence, or -1 when the element does not occur. -/
def jsIndexOf (arr : List String) (x : String) : Int :=
  match arr with
  | [] => -1
  | a :: rest =>
    if a = x then 0
    else
      let r := jsIndexOf rest x
      if r = -1 then -1 else r + 1

/-- Edge traversal flag (dotLayout.ts lines 342-344): an edge is traversed
when both endpoints occur in the execution path and the target's indexOf is
strictly greater than the source's. -/
def edgeTraversed (source target : String) (path : List String) : Bool :=
  let sourceIdx := jsIndexOf path source
  let targetIdx := jsIndexOf path target
  decide (0 ≤ sourceIdx) && decide (0 ≤ targetIdx) && decide (sourceIdx < targetIdx)

/-- A parsed ts-graphviz edge statement: the chain of target node identifiers
("a -> b -> c" has targets [a, b, c], each already resolved to its id string
as extractNodeId does) and the value of its "label" attribute when present
(edge.attributes.get can return undefined, modelled as none). -/
structure DotEdge where
  targets : List String
  label : Option String
deriving DecidableEq, Repr

/-- A parsed ts-graphviz graph: node identifiers and edge statements. -/
structure DotGraph where
  nodes : List String
  edges : List DotEdge
deriving DecidableEq, Repr

/-- One topology edge fed to the layout engine (the elements of dotLayout.ts's
dotEdges array). -/
structure TopoEdge where
  source : String
  target : String
  label : String
deriving DecidableEq, Repr

/-- The extracted graph topology: the dotNodes and dotEdges arrays of
layoutPipeline's step 1. -/
structure GraphTopology where
  nodes : List String
  edges : List TopoEdge
deriving DecidableEq, Repr

/-- Consecutive pairwise edges of a ts-graphviz chain edge (the inner loop of
layoutPipeline's step 1): targets [a, b, c] yield (a, b) and (b, c), each
carrying the chain's label. -/
def chainPairs (label : String) : List String → List TopoEdge
  | a :: b :: rest => { source := a, target := b, label := label } :: chainPairs label (b :: rest)
  | _ => []

/-- Step 1 of layoutPipeline (dotLayout.ts lines 226-260): the topology, from
the DOT parse result when fromDot succeeded, or reconstructed from the
snapshot's node map and edge list when it threw (parsed = error). -/
def extractTopology (parsed : Except Unit DotGraph) (pipelineState : PipelineRunState) :
    GraphTopology :=
  match parsed with
  | Except.ok g =>
    { nodes := g.nodes
      edges := (g.edges.map (fun e => chainPairs (e.label.getD "") e.targets)).flatten }
  | Except.error _ =>
    { nodes := pipelineState.nodes.map Prod.fst
      edges := pipelineState.edges.map
        (fun e => { source := e.from_node, target := e.to_node, label := e.label }) }

/-- Follows the spec's words for comparison: the GraphTopology "built directly
from the ExecutionSnapshot's node/edge maps" — the node map's keys in order,
and one edge per entry of the edge list keeping its source, target and
label. -/
def snapshotTopology (pipelineState : PipelineRunState) : GraphTopology :=
  { nodes := pipelineState.nodes.map Prod.fst
    edges := pipelineState.edges.map
      (fun e => { source := e.from_node, target := e.to_node, label := e.label }) }

/-- One positioned child of ELK's layout output: the input node id together
with the coordinates ELK computed. elkjs declares x and y optional; the code
reads them as elkNode.x ?? 0 and elkNode.y ?? 0. -/
structure ElkChild where
  id : String
  x : Option ℚ
  y : Option ℚ
deriving DecidableEq, Repr

/-- An absolute 2D position of a laid-out React Flow node. -/
structure XY where
  x : ℚ
  y : ℚ
deriving DecidableEq, Repr

/-- The data record attached to every rendered pipeline node (dotLayout.ts,
PipelineNodeData). -/
structure PipelineNodeData where
  label : String
  nodeId : String
  nodeInfo : NodeInfo
  state : NodeState
  durationMs : Nat
  tokensIn : Nat
  tokensOut : Nat
  loopCount : Nat
deriving DecidableEq, Repr

/-- A laid-out React Flow node as layoutPipeline constructs it: identifier,
node type tag, absolute position and the mutable data record. -/
structure RFNode where
  id : String
  type : String
  position : XY
  data : PipelineNodeData
deriving DecidableEq, Repr

/-- A React Flow edge as layoutPipeline constructs it, restricted to the
fields derived from topology and execution state (the routed elkSections and
the CSS marker are carried through unchanged and are not modelled). -/
structure RFEdge where
  id : String
  source : String
  target : String
  label : Option String
  traversed : Bool
deriving DecidableEq, Repr

/-- Step 3 of layoutPipeline for one positioned ELK child (dotLayout.ts lines
300-330): the node info defaults to a box with the id as label when the
snapshot's node map has no entry, the visual state comes from getNodeState,
and duration and token counts come from the last run when one exists. -/
def mkPipelineNode (pipelineState : PipelineRunState) (elkNode : ElkChild) : RFNode :=
  let nodeId := elkNode.id
  let nodeInfo := (pipelineState.nodes.lookup nodeId).getD
    { id := nodeId, label := nodeId, shape := "box", type := "", prompt := "" }
  let state := getNodeState nodeId pipelineState
  let runs := (pipelineState.node_runs.lookup nodeId).getD []
  let lastRun := runs.getLast?
  { id := nodeId
    type := "pipelineNode"
    position := { x := elkNode.x.getD 0, y := elkNode.y.getD 0 }
    data :=
      { label := if nodeInfo.label = "" then nodeId else nodeInfo.label
        nodeId := nodeId
        nodeInfo := nodeInfo
        state := state
        durationMs := (lastRun.map NodeRun.duration_ms).getD 0
        tokensIn := (lastRun.map NodeRun.tokens_in).getD 0
        tokensOut := (lastRun.map NodeRun.tokens_out).getD 0
        loopCount := (pipelineState.loop_iterations.lookup nodeId).getD 0 } }

/-- The React Flow edge built for the i-th topology edge (dotLayout.ts lines
340-367): id string, endpoints, label (undefined when empty, via e.label ||
undefined) and the traversal flag from the execution path. -/
def mkPipelineEdge (pipelineState : PipelineRunState) (i : Nat) (e : TopoEdge) : RFEdge :=
  let isTraversed := edgeTraversed e.source e.target pipelineState.execution_path
  { id := "e" ++ toString i ++ "-" ++ e.source ++ "-" ++ e.target
    source := e.source
    target := e.target
    label := if e.label = "" then none else some e.label
    traversed := isTraversed }

/-- The value layoutPipeline resolves with. -/
structure LayoutResult where
  nodes : List RFNode
  edges : List RFEdge
deriving DecidableEq, Repr

/-- layoutPipeline (dotLayout.ts lines 223-370) with its two external calls as
oracle parameters: parsed stands for the result of ts-graphviz fromDot (error
means the parser threw) and elkLayout for the awaited elk.layout, which
returns one positioned child per input node id. Step 2's layout options are
configuration for the oracle and carry no data. -/
def layoutPipelineModel (parsed : Except Unit DotGraph)
    (elkLayout : List String → List ElkChild)
    (pipelineState : PipelineRunState) : LayoutResult :=
  let topo := extractTopology parsed pipelineState
  let children := elkLayout topo.nodes
  { nodes := children.map (mkPipelineNode pipelineState)
    edges := topo.edges.enum.map (fun p => mkPipelineEdge pipelineState p.1 p.2) }

/-- Live-update merge (dotLayout.ts lines 377-401): map over the existing
nodes, spreading each node and its data and replacing only nodeInfo, state,
durationMs, tokensIn, tokensOut and loopCount from the new snapshot. -/
def updateNodeData (existingNodes : List RFNode) (newState : PipelineRunState) :
    List RFNode :=
  existingNodes.map (fun node =>
    let nodeId := node.id
    let state := getNodeState nodeId newState
    let runs := (newState.node_runs.lookup nodeId).getD []
    let lastRun := runs.getLast?
    let nodeInfo := (newState.nodes.lookup nodeId).getD node.data.nodeInfo
    { node with
      data :=
        { node.data with
          nodeInfo := nodeInfo
          state := state
          durationMs := (lastRun.map NodeRun.duration_ms).getD 0
          tokensIn := (lastRun.map NodeRun.tokens_in).getD 0
          tokensOut := (lastRun.map NodeRun.tokens_out).getD 0
          loopCount := (newState.loop_iterations.lookup nodeId).getD 0 } })

/-- The initial retry delay of the push channel, in milliseconds
(useWebSocket, INITIAL_RETRY_MS). -/
def INITIAL_RETRY_MS : Nat := 1000

/-- The backoff ceiling of the push channel, in milliseconds (useWebSocket,
MAX_RETRY_MS). -/
def MAX_RETRY_MS : Nat := 16000

/-- The mutable state of one useWebSocket hook instance: the held snapshot,
the connected flag, the current backoff delay, the unmounted flag and whether
the handlers have actively closed the socket (channelOpen). -/
structure WsHook where
  state : Option PipelineRunState
  connected : Bool
  retryMs : Nat
  unmounted : Bool
  channelOpen : Bool
deriving DecidableEq, Repr

/-- The hook state right after connect creates the WebSocket: nothing held
yet, not connected, backoff at its initial value, mounted, socket open. -/
def initialHook : WsHook :=
  { state := none
    connected := false
    retryMs := INITIAL_RETRY_MS
    unmounted := false
    channelOpen := true }

/-- ws.onopen: when unmounted the socket is closed at once; otherwise the
connected flag is set and the retry delay resets to its minimum. -/
def wsOnOpen (h : WsHook) : WsHook :=
  if h.unmounted then { h with channelOpen := false }
  else { h with connected := true, retryMs := INITIAL_RETRY_MS }

/-- ws.onmessage: the inbound frame is parsed as a PipelineRunState; parsed
is that result, none when JSON.parse threw. A successful parse replaces the
held snapshot; a malformed payload is ignored. The handler never touches the
socket. -/
def wsOnMessage (parsed : Option PipelineRunState) (h : WsHook) : WsHook :=
  if h.unmounted then h
  else
    match parsed with
    | some data => { h with state := some data }
    | none => h

/-- ws.onclose: when unmounted nothing is scheduled; otherwise the connected
flag clears and a reconnect timer is scheduled after the current retryMs,
returned as the second component. -/
def wsOnClose (h : WsHook) : WsHook × Option Nat :=
  if h.unmounted then (h, none)
  else ({ h with connected := false }, some h.retryMs)

/-- The reconnect timer's callback, before it calls connect: the retry delay
doubles, capped at MAX_RETRY_MS. -/
def wsRetryTimerFire (h : WsHook) : WsHook :=
  { h with retryMs := min (h.retryMs * 2) MAX_RETRY_MS }

/-- The delays scheduled before each reconnect over n consecutive failed
connect attempts starting from hook state h: each failure fires onclose,
which schedules the next reconnect after the current delay; when that timer
fires the delay doubles (capped) and connect runs again. -/
def scheduledDelays : Nat → WsHook → List Nat
  | 0, _ => []
  | n + 1, h =>
    match wsOnClose h with
    | (h1, none) => scheduledDelays n h1
    | (h1, some d) => d :: scheduledDelays n (wsRetryTimerFire h1)

/-- A 2D point of ELK's routed edge geometry (PipelineEdge.tsx, ElkPoint). -/
structure ElkPoint where
  x : ℚ
  y : ℚ
deriving DecidableEq, Repr

/-- One routed section of an ELK edge (PipelineEdge.tsx, ElkSection): start
point, ordered bend points (absent is modelled as the empty list, as the code
reads section.bendPoints ?? []) and end point. -/
structure ElkSection where
  startPoint : ElkPoint
  endPoint : ElkPoint
  bendPoints : List ElkPoint
deriving DecidableEq, Repr

/-- An SVG path command as elkSectionsToPath emits them: M, L or Q. -/
inductive PathCmd
  | move (p : ElkPoint)
  | line (p : ElkPoint)
  | quad (c p : ElkPoint)
deriving DecidableEq, Repr

/-- The body of elkSectionsToPath's loop for one interior bend point
(PipelineEdge.tsx lines 54-88). sqrt stands for the floating-point Math.sqrt
call, taken as an oracle parameter; everything else is exact rational
arithmetic. A zero length on either adjacent segment emits a straight line to
the point; otherwise the radius is clamped to half of each segment and a line
to the clamp point plus a quadratic corner through the bend are emitted. -/
def bendCommands (sqrt : ℚ → ℚ) (cornerRadius : ℚ) (prev curr next : ElkPoint) :
    List PathCmd :=
  let dx1 := curr.x - prev.x
  let dy1 := curr.y - prev.y
  let dx2 := next.x - curr.x
  let dy2 := next.y - curr.y
  let len1 := sqrt (dx1 * dx1 + dy1 * dy1)
  let len2 := sqrt (dx2 * dx2 + dy2 * dy2)
  if len1 = 0 ∨ len2 = 0 then [PathCmd.line curr]
  else
    let r := min cornerRadius (min (len1 / 2) (len2 / 2))
    let bx1 := curr.x - dx1 / len1 * r
    let by1 := curr.y - dy1 / len1 * r
    let bx2 := curr.x + dx2 / len2 * r
    let by2 := curr.y + dy2 / len2 * r
    [PathCmd.line { x := bx1, y := by1 }, PathCmd.quad curr { x := bx2, y := by2 }]

/-- elkSectionsToPath's loop over the interior points (indices 1 to
length - 2): walk the point sequence with the previous point at hand and
emit each bend's commands. -/
def interiorCommands (sqrt : ℚ → ℚ) (cornerRadius : ℚ) :
    ElkPoint → List ElkPoint → List PathCmd
  | _, [] => []
  | _, [_] => []
  | prev, curr :: next :: rest =>
    bendCommands sqrt cornerRadius prev curr next ++
      interiorCommands sqrt cornerRadius curr (next :: rest)

/-- elkSectionsToPath (PipelineEdge.tsx lines 40-93) emitting path commands
instead of the SVG string: empty for no sections, else the first section's
start point, bends and end point are walked; a move to the first point, the
loop's commands for each interior point, and a final line to the last
point. -/
def elkSectionsToPath (sqrt : ℚ → ℚ) (sections : List ElkSection)
    (cornerRadius : ℚ) : List PathCmd :=
  match sections with
  | [] => []
  | sec :: _ =>
    let points := sec.startPoint :: (sec.bendPoints ++ [sec.endPoint])
    if points.length < 2 then []
    else
      match points with
      | [] => []
      | p0 :: rest =>
        PathCmd.move p0 ::
          (interiorCommands sqrt cornerRadius p0 rest ++
            [PathCmd.line ((p0 :: rest).getLast (by simp))])

/-- A completed failing run (status fail, attempt 1) used to evaluate
getNodeState on concrete snapshots. -/
def failRun : NodeRun :=
  { status := RunStatus.fail
    attempt := 1
    started_at := "t0"
    completed_at := some "t1"
    duration_ms := 5
    outcome_notes := none
    llm_calls := 1
    tokens_in := 10
    tokens_out := 20
    tokens_cached := 0 }

/-- A currently running second attempt. -/
def runningRun : NodeRun :=
  { failRun with status := RunStatus.running, attempt := 2, completed_at := none }

/-- A running pipeline in which node A has one failed run and an active loop
counter of 2: the configuration the spec maps to the retrying state. -/
def retryLoopState : PipelineRunState :=
  { pipeline_id := "p1"
    dot_source := "digraph"
    goal := ""
    nodes := []
    edges := []
    status := PipelineStatus.running
    current_node := none
    execution_path := ["A"]
    node_runs := [("A", [failRun])]
    loop_iterations := [("A", 2)] }

/-- A running pipeline in which node A has a failed first run followed by a
running second attempt: the configuration the spec maps to retrying. -/
def retryRunningState : PipelineRunState :=
  { retryLoopState with node_runs := [("A", [failRun, runningRun])] }

/-- A snapshot with empty node and run maps, for evaluating the layout
conversion on a node id the snapshot does not know. -/
def emptyState : PipelineRunState :=
  { pipeline_id := "p2"
    dot_source := "digraph"
    goal := ""
    nodes := []
    edges := []
    status := PipelineStatus.pending
    current_node := none
    execution_path := []
    node_runs := []
    loop_iterations := [] }

/-- A positioned ELK child whose id has no entry in emptyState. -/
def ghostChild : ElkChild :=
  { id := "ghost", x := some 40, y := some 60 }

/-- A concrete stand-in for Math.sqrt satisfying sqrt 0 = 0, used to
instantiate oracle-parameterized theorems at concrete inputs. -/
def sqrtW (q : ℚ) : ℚ :=
  if q = 0 then 0 else 1

/-- jsIndexOf never returns less than -1. -/
theorem jsIndexOf_ge_neg_one (path : List String) (s : String) : -1 ≤ jsIndexOf path s := by
  induction path with
  | nil => simp [jsIndexOf]
  | cons a rest ih =>
    by_cases h : a = s
    · simp [jsIndexOf, h]
    · by_cases hr : jsIndexOf rest s = -1
      · simp [jsIndexOf, h, hr]
      · simp only [jsIndexOf, h, if_false, hr, ite_false]
        omega

/-- jsIndexOf is nonnegative exactly when the element occurs in the list. -/
theorem jsIndexOf_nonneg_iff (path : List String) (s : String) :
    0 ≤ jsIndexOf path s ↔ s ∈ path := by
  induction path with
  | nil => simp [jsIndexOf]
  | cons a rest ih =>
    by_cases h : a = s
    · subst h
      simp [jsIndexOf]
    · have hne : ¬s = a := fun e => h e.symm
      by_cases hr : jsIndexOf rest s = -1
      · have hmem : ¬s ∈ rest := by
          rw [← ih, hr]
          omega
        simp [jsIndexOf, h, hr, hne, hmem]
      · have h0 : 0 ≤ jsIndexOf rest s := by
          have := jsIndexOf_ge_neg_one rest s
          omega
        have hmem : s ∈ rest := ih.mp h0
        simp only [jsIndexOf, h, if_false, hr, ite_false, List.mem_cons]
        constructor
        · intro _
          exact Or.inr hmem
        · intro _
          omega

/-- Doubling under a cap: capping before multiplying by a positive factor
gives the same capped product. -/
theorem min_cap_mul (a c b : Nat) (hb : 1 ≤ b) : min (min a c * b) c = min (a * b) c := by
  rcases Nat.le_total a c with h | h
  · rw [Nat.min_eq_left h]
  · rw [Nat.min_eq_right h]
    have hcb : c ≤ c * b := Nat.le_mul_of_pos_right c hb
    have hab : c ≤ a * b := le_trans hcb (Nat.mul_le_mul_right b h)
    rw [Nat.min_eq_right hcb, Nat.min_eq_right hab]

/-- Closed form of the scheduled reconnect delays from any mounted hook state
whose delay is at most the ceiling: the k-th delay is the doubled initial
delay capped at the ceiling. -/
theorem scheduledDelays_eq (m : Nat) (h : WsHook) (hu : h.unmounted = false)
    (hle : h.retryMs ≤ MAX_RETRY_MS) :
    scheduledDelays m h =
      (List.range m).map (fun k => min (h.retryMs * 2 ^ k) MAX_RETRY_MS) := by
  induction m generalizing h with
  | zero => simp [scheduledDelays]
  | succ n ih =>
    have hstep : scheduledDelays (n + 1) h =
        h.retryMs :: scheduledDelays n (wsRetryTimerFire { h with connected := false }) := by
      simp [scheduledDelays, wsOnClose, hu]
    rw [hstep, ih _ (by simp [wsRetryTimerFire, hu]) (by simp [wsRetryTimerFire])]
    rw [List.range_succ_eq_map, List.map_cons, List.map_map]
    refine congrArg₂ List.cons ?_ ?_
    · simp [Nat.min_eq_left hle]
    · have hfun :
          (fun k => min ((wsRetryTimerFire { h with connected := false }).retryMs * 2 ^ k)
            MAX_RETRY_MS) =
          ((fun k => min (h.retryMs * 2 ^ k) MAX_RETRY_MS) ∘ Nat.succ) := by
        funext k
        show min (min (h.retryMs * 2) MAX_RETRY_MS * 2 ^ k) MAX_RETRY_MS = _
        rw [min_cap_mul _ _ _ Nat.one_le_two_pow]
        simp only [Function.comp_apply]
        congr 1
        rw [pow_succ]
        ring
      rw [hfun]

/-- C1: for every already-laid-out node list and every new snapshot,
updateNodeData returns a node list with exactly the same identifiers in the
same order, every node's position unchanged, and also the node type and the
immutable data fields (label, nodeId) unchanged: only nodeInfo, state,
durationMs, tokensIn, tokensOut and loopCount may differ. -/
theorem updateNodeData_preserves_layout (existingNodes : List RFNode)
    (newState : PipelineRunState) :
    (updateNodeData existingNodes newState).map RFNode.id = existingNodes.map RFNode.id ∧
    (updateNodeData existingNodes newState).map RFNode.position =
      existingNodes.map RFNode.position ∧
    (updateNodeData existingNodes newState).map RFNode.type = existingNodes.map RFNode.type ∧
    (updateNodeData existingNodes newState).map (fun n => n.data.label) =
      existingNodes.map (fun n => n.data.label) ∧
    (updateNodeData existingNodes newState).map (fun n => n.data.nodeId) =
      existingNodes.map (fun n => n.data.nodeId) := by
  refine ⟨?_, ?_, ?_, ?_, ?_⟩ <;> (unfold updateNodeData; rw [List.map_map]; rfl)

/-- C2, evaluated on the code: node A's last run failed, its loop counter is
2 and the pipeline is still running, yet getNodeState returns failed — the
code never returns retrying for a fail or timeout run. -/
theorem getNodeState_failed_despite_active_loop :
    getNodeState "A" retryLoopState = NodeState.failed := by
  rfl

/-- C3, evaluated on the code: node A has a failed first run and a running
second attempt, yet getNodeState returns running — the code never returns
retrying for a running re-attempt. -/
theorem getNodeState_running_despite_prior_run :
    getNodeState "A" retryRunningState = NodeState.running := by
  rfl

/-- C4: an edge is traversed exactly when both endpoints occur in the
execution path and the target's first index is strictly greater than the
source's; in particular for path A, B, C the edges (A,B) and (A,C) are
traversed and (B,A) and (C,A) are not. -/
theorem edgeTraversed_iff_path_order :
    (∀ source target path,
      edgeTraversed source target path = true ↔
        source ∈ path ∧ target ∈ path ∧ jsIndexOf path source < jsIndexOf path target) ∧
    edgeTraversed "A" "B" ["A", "B", "C"] = true ∧
    edgeTraversed "B" "A" ["A", "B", "C"] = false ∧
    edgeTraversed "A" "C" ["A", "B", "C"] = true ∧
    edgeTraversed "C" "A" ["A", "B", "C"] = false := by
  refine ⟨?_, by rfl, by rfl, by rfl, by rfl⟩
  intro source target path
  unfold edgeTraversed
  simp only [Bool.and_eq_true, decide_eq_true_eq]
  rw [jsIndexOf_nonneg_iff, jsIndexOf_nonneg_iff]
  tauto

/-- C5: when the DOT parser throws, the topology layoutPipeline uses — the
node identifiers fed to ELK and the source, target and label of every edge —
is exactly the one built from the snapshot's node map keys and edge list, and
the whole computation stays total (no error reaches the caller: the catch
block replaces the parse result and the function still returns a
LayoutResult). -/
theorem parse_failure_uses_snapshot_topology (pipelineState : PipelineRunState) :
    extractTopology (Except.error ()) pipelineState = snapshotTopology pipelineState ∧
    ∀ elkLayout,
      layoutPipelineModel (Except.error ()) elkLayout pipelineState =
        { nodes := (elkLayout (snapshotTopology pipelineState).nodes).map
            (mkPipelineNode pipelineState)
          edges := (snapshotTopology pipelineState).edges.enum.map
            (fun p => mkPipelineEdge pipelineState p.1 p.2) } := by
  exact ⟨rfl, fun _ => rfl⟩

/-- C6: over consecutive failed connect attempts the scheduled reconnect
delays are 1000, 2000, 4000, 8000, 16000, 16000 ms and stay at the ceiling
from then on (in closed form the k-th delay is min (1000 * 2 ^ k) 16000),
and a successful connect while mounted resets the delay to the 1000 ms
minimum. -/
theorem reconnect_backoff_sequence :
    scheduledDelays 6 initialHook = [1000, 2000, 4000, 8000, 16000, 16000] ∧
    (∀ n, scheduledDelays n initialHook =
      (List.range n).map (fun k => min (1000 * 2 ^ k) 16000)) ∧
    (∀ h, h.unmounted = false → (wsOnOpen h).retryMs = 1000) := by
  refine ⟨by rfl, ?_, ?_⟩
  · intro n
    exact scheduledDelays_eq n initialHook rfl (by norm_num [initialHook, INITIAL_RETRY_MS, MAX_RETRY_MS])
  · intro h hu
    simp [wsOnOpen, hu, INITIAL_RETRY_MS]

/-- C7: a malformed push-channel payload (parse result none) leaves the whole
hook state unchanged — in particular the held snapshot — and no inbound
message, well-formed or not, ever closes the channel. -/
theorem malformed_message_is_dropped :
    (∀ h, wsOnMessage none h = h) ∧
    (∀ h parsed, (wsOnMessage parsed h).channelOpen = h.channelOpen) := by
  constructor
  · intro h
    unfold wsOnMessage
    split <;> rfl
  · intro h parsed
    unfold wsOnMessage
    split
    · rfl
    · cases parsed <;> rfl

/-- C9: the traversal flag is a function of the two endpoints' first
occurrence indices only, and for the path B, A, B the edge (A,B) is not
traversed although the A at index 1 is followed by a later B at index 2. -/
theorem traversal_uses_first_occurrence_only :
    (∀ source target p q,
      jsIndexOf p source = jsIndexOf q source →
      jsIndexOf p target = jsIndexOf q target →
      edgeTraversed source target p = edgeTraversed source target q) ∧
    edgeTraversed "A" "B" ["B", "A", "B"] = false ∧
    ["B", "A", "B"].get? 1 = some "A" ∧
    ["B", "A", "B"].get? 2 = some "B" := by
  refine ⟨?_, by rfl, by rfl, by rfl⟩
  intro source target p q h1 h2
  unfold edgeTraversed
  rw [h1, h2]

/-- C10: the step-3 conversion is total on node ids the snapshot does not
know: with no entry in the node map or the run map, the produced node's label
is the node id (via the default NodeInfo) and its duration and token fields
are 0. -/
theorem unknown_node_gets_defaults (pipelineState : PipelineRunState) (elkNode : ElkChild)
    (hnodes : pipelineState.nodes.lookup elkNode.id = none)
    (hruns : pipelineState.node_runs.lookup elkNode.id = none) :
    (mkPipelineNode pipelineState elkNode).data.label = elkNode.id ∧
    (mkPipelineNode pipelineState elkNode).data.nodeInfo =
      { id := elkNode.id, label := elkNode.id, shape := "box", type := "", prompt := "" } ∧
    (mkPipelineNode pipelineState elkNode).data.durationMs = 0 ∧
    (mkPipelineNode pipelineState elkNode).data.tokensIn = 0 ∧
    (mkPipelineNode pipelineState elkNode).data.tokensOut = 0 := by
  simp [mkPipelineNode, hnodes, hruns, ite_self]

/-- Witness for C10 at a concrete input: emptyState knows no node, so the
ghost child keeps its id as label and zeroed metrics. -/
theorem unknown_node_gets_defaults_witness :
    (mkPipelineNode emptyState ghostChild).data.label = "ghost" ∧
    (mkPipelineNode emptyState ghostChild).data.nodeInfo =
      { id := "ghost", label := "ghost", shape := "box", type := "", prompt := "" } ∧
    (mkPipelineNode emptyState ghostChild).data.durationMs = 0 ∧
    (mkPipelineNode emptyState ghostChild).data.tokensIn = 0 ∧
    (mkPipelineNode emptyState ghostChild).data.tokensOut = 0 :=
  unknown_node_gets_defaults emptyState ghostChild rfl rfl

/-- C8: at an interior bend whose two adjacent segments both have non-zero
length (as measured by the sqrt call), the corner-curve offset used by the
path builder is exactly min (cornerRadius, len1 / 2, len2 / 2) — so it never
exceeds the radius nor half of either adjacent segment — and when either
adjacent segment is degenerate (zero length, in particular a repeated point)
no curve is emitted, only a straight line to the bend point. -/
theorem corner_radius_clamped (sqrt : ℚ → ℚ) (cornerRadius : ℚ)
    (prev curr next : ElkPoint) (hsqrt0 : sqrt 0 = 0) :
    (∀ len1 len2,
      len1 = sqrt ((curr.x - prev.x) * (curr.x - prev.x) +
        (curr.y - prev.y) * (curr.y - prev.y)) →
      len2 = sqrt ((next.x - curr.x) * (next.x - curr.x) +
        (next.y - curr.y) * (next.y - curr.y)) →
      ¬len1 = 0 → ¬len2 = 0 →
      bendCommands sqrt cornerRadius prev curr next =
        [PathCmd.line
          { x := curr.x - (curr.x - prev.x) / len1 *
              min cornerRadius (min (len1 / 2) (len2 / 2))
            y := curr.y - (curr.y - prev.y) / len1 *
              min cornerRadius (min (len1 / 2) (len2 / 2)) },
         PathCmd.quad curr
          { x := curr.x + (next.x - curr.x) / len2 *
              min cornerRadius (min (len1 / 2) (len2 / 2))
            y := curr.y + (next.y - curr.y) / len2 *
              min cornerRadius (min (len1 / 2) (len2 / 2)) }] ∧
      min cornerRadius (min (len1 / 2) (len2 / 2)) ≤ cornerRadius ∧
      min cornerRadius (min (len1 / 2) (len2 / 2)) ≤ len1 / 2 ∧
      min cornerRadius (min (len1 / 2) (len2 / 2)) ≤ len2 / 2) ∧
    (prev = curr ∨ next = curr →
      bendCommands sqrt cornerRadius prev curr next = [PathCmd.line curr]) ∧
    elkSectionsToPath sqrt
        [{ startPoint := prev, endPoint := next, bendPoints := [curr] }] cornerRadius =
      PathCmd.move prev ::
        (bendCommands sqrt cornerRadius prev curr next ++ [PathCmd.line next]) := by
  refine ⟨?_, ?_, ?_⟩
  · intro len1 len2 e1 e2 h1 h2
    subst e1
    subst e2
    refine ⟨?_, min_le_left _ _, le_trans (min_le_right _ _) (min_le_left _ _),
      le_trans (min_le_right _ _) (min_le_right _ _)⟩
    unfold bendCommands
    rw [if_neg]
    push_neg
    exact ⟨h1, h2⟩
  · intro hdeg
    rcases hdeg with h | h
    · subst h
      simp [bendCommands, sub_self, hsqrt0]
    · subst h
      simp [bendCommands, sub_self, hsqrt0]
  · simp [elkSectionsToPath, interiorCommands]

/-- Witness for C8 at a concrete input: a degenerate incoming segment (the
bend repeats the start point) draws a straight line to the bend point. -/
theorem corner_radius_clamped_witness :
    bendCommands sqrtW 8 { x := 0, y := 0 } { x := 0, y := 0 } { x := 5, y := 0 } =
      [PathCmd.line { x := 0, y := 0 }] :=
  (corner_radius_clamped sqrtW 8 { x := 0, y := 0 } { x := 0, y := 0 } { x := 5, y := 0 }
    (by simp [sqrtW])).2.1 (Or.inl rfl)
